import Mathlib

/-!
# Native tracing Kafka forwarder

A shallow embedding of `plugins/forwarder/kafka/nativetracing/forwarder.go`
and the properties of `Prepare`, `Forward`, `SyncForward` and
`SupportedSyncInvoke`.

Conventions of the embedding.

* A Go call either returns or panics: `Outcome`.
* A Go `error` is `Option GoError`; `none` is the nil error.
* A pointer or interface that may be nil is an `Option`.
* The adapter, the batch, the broker behind the producer, the list of
  `SendMessages` calls and the log are threaded explicitly through `Forward`,
  so that what a call leaves untouched can be stated.
* `proto.Unmarshal` and `sarama.NewSyncProducerFromClient` are library
  functions and enter as parameters; they and `SendMessages` are taken to
  return, and `NewSyncProducerFromClient` to give a producer that is not nil
  when it gives no error.
* Events are as the protobuf runtime builds them: an event pointer may be nil
  and the `oneof` field may be nil, but a `oneof` wrapper that is present is
  not itself a nil pointer. The global `log.Logger` is initialised.
-/

namespace NativeTracing

/-! ## Go values -/

/-- Go error value, identified by the text its `Error()` method reports. -/
structure GoError where
  text : String
deriving DecidableEq, Repr

/-- Result of a Go call: it returns a value, or the goroutine panics. -/
inductive Outcome (α : Type) where
  | returned (v : α)
  | panicked (reason : String)
deriving DecidableEq, Repr

/-- Whether a call came back to its caller. -/
def Outcome.isReturned {α : Type} : Outcome α → Bool
  | .returned _ => true
  | .panicked _ => false

/-- Go `fmt.Errorf` restricted to the verb-free result: the error whose text is
the formatted string. -/
def fmtErrorf (formatted : String) : GoError := ⟨formatted⟩

/-! ## Data model -/

/-- Modelled from the spec: the payload union of `v1.SniffData` (its Go
declaration is generated code outside this file). The source distinguishes the
segment payload (raw bytes), the span-attached-event payload, and every other
kind. -/
inductive SniffData_Data where
  | Segment (Segment : List UInt8)
  | SpanAttachedEvent (SpanAttachedEvent : List UInt8)
  | Other (kind : Nat) (payload : List UInt8)
deriving DecidableEq, Repr

/-- Modelled from the spec: the envelope event `v1.SniffData`; `Data` is the
`oneof` field, nil when no payload is set. -/
structure SniffData where
  Timestamp : Int
  Name : String
  Remote : Bool
  Meta : List (String × String)
  Data : Option SniffData_Data
deriving DecidableEq, Repr

/-- Generated getter `(*SniffData).GetData`: nil-safe on the receiver. -/
def GetData (e : Option SniffData) : Option SniffData_Data :=
  match e with
  | none => none
  | some x => x.Data

/-- Go `event.BatchEvents`, a slice of `*v1.SniffData`. -/
abbrev BatchEvents := List (Option SniffData)

/-- Modelled from the spec: the decoded segment record `v3.SegmentObject`, with
the identifier the forwarder reads. -/
structure SegmentObject where
  TraceId : String
  TraceSegmentId : String
  Service : String
  ServiceInstance : String
deriving DecidableEq, Repr

/-- Generated getter `(*SegmentObject).GetTraceSegmentId`. -/
def SegmentObject.GetTraceSegmentId (s : SegmentObject) : String := s.TraceSegmentId

/-- The two `sarama.Encoder` implementations the forwarder builds. -/
inductive Encoder where
  | StringEncoder (s : String)
  | ByteEncoder (b : List UInt8)
deriving DecidableEq, Repr

/-- The fields of `sarama.ProducerMessage` the forwarder sets. -/
structure ProducerMessage where
  Topic : String
  Key : Encoder
  Value : Encoder
deriving DecidableEq, Repr

/-- The interface `sarama.SyncProducer`, as far as the forwarder uses it: a
blocking multi-message send acting on a broker state `σ`. -/
structure SyncProducer (σ : Type) where
  SendMessages : σ → List ProducerMessage → Option GoError × σ

/-- Modelled from the spec: `config.CommonFields`, of which the forwarder reads
the pipe name. -/
structure CommonFields where
  PipeName : String
deriving DecidableEq, Repr

/-- The adapter `Forwarder`. The producer is an interface value, nil until
`Prepare` sets it. -/
structure Forwarder (σ : Type) extends CommonFields where
  Topic : String
  producer : Option (SyncProducer σ)

/-- Log levels of the logger the forwarder writes to. -/
inductive Level where
  | Warn
  | Other
deriving DecidableEq, Repr

/-- One record written to `log.Logger`. -/
structure LogEntry where
  level : Level
  fields : List (String × String)
  text : String
deriving DecidableEq, Repr

/-- What lives outside the adapter and the batch: the broker behind the
producer, the `SendMessages` calls made so far, and the log. -/
structure Process (σ : Type) where
  broker : σ
  sent : List (List ProducerMessage)
  log : List LogEntry

/-! ## Constants and metadata -/

def Name : String := "native-tracing-kafka-forwarder"

def ShowName : String := "Native Tracing Kafka Forwarder"

def Forwarder.Name {σ : Type} (_f : Forwarder σ) : String := NativeTracing.Name

def Forwarder.ShowName {σ : Type} (_f : Forwarder σ) : String := NativeTracing.ShowName

/-! ## Prepare -/

/-- A non-nil value held in an `interface{}`: the string `reflect.TypeOf`
reports for its dynamic type and, when that type implements `sarama.Client`,
the client it is. -/
structure Dynamic (κ : Type) where
  typeString : String
  asClient : Option κ

/-- Type assertion `connection.(sarama.Client)` in its two-result form. -/
def assertClient {κ : Type} (connection : Option (Dynamic κ)) : Option κ :=
  match connection with
  | none => none
  | some d => d.asClient

/-- Go `reflect.TypeOf`: the nil `Type` for the nil interface. -/
def reflectTypeOf {κ : Type} (connection : Option (Dynamic κ)) : Option String :=
  match connection with
  | none => none
  | some d => some d.typeString

/-- The method `(*Forwarder).Prepare`: the call's outcome and the adapter after
it. -/
def Forwarder.Prepare {σ κ : Type}
    (NewSyncProducerFromClient : κ → Except GoError (SyncProducer σ))
    (f : Forwarder σ) (connection : Option (Dynamic κ)) :
    Outcome (Option GoError) × Forwarder σ :=
  match assertClient connection with
  | none =>
    match reflectTypeOf connection with
    | none => (.panicked "invalid memory address or nil pointer dereference", f)
    | some ty =>
      (.returned (some (fmtErrorf
        ("the " ++ f.Name ++ " only accepts a grpc client, but received a " ++ ty))), f)
  | some client =>
    match NewSyncProducerFromClient client with
    | .error err => (.returned (some err), f)
    | .ok producer => (.returned none, { f with producer := some producer })

/-! ## Forward -/

/-- The warning the forwarder logs for a span-attached event. -/
def spanAttachedWarning {σ : Type} (f : Forwarder σ) : LogEntry :=
  { level := .Warn
    fields := [("pipe", f.PipeName)]
    text := "native-tracing-kafka-forwarder " ++
      "does not support messages of type SpanAttachedEvent and has discarded them." ++
      " Please choose native-tracing-grpc-forwarder as a replacement." }

/-- State of the `for` loop of `Forward` when it is left: the local slice
`message`, the log, and the error of an early `return err`. -/
structure LoopExit where
  message : List ProducerMessage
  log : List LogEntry
  err : Option GoError
deriving DecidableEq, Repr

/-- The `for _, e := range batch` loop of `Forward`, from the events still to
visit, the slice built so far and the log so far. -/
def forwardLoop {σ : Type} (Unmarshal : List UInt8 → Except GoError SegmentObject)
    (f : Forwarder σ) : BatchEvents → List ProducerMessage → List LogEntry → LoopExit
  | [], message, log => { message := message, log := log, err := none }
  | e :: rest, message, log =>
    match GetData e with
    | some (.Segment segment) =>
      match Unmarshal segment with
      | .error err => { message := message, log := log, err := some err }
      | .ok segmentObject =>
        forwardLoop Unmarshal f rest
          (message ++ [{ Topic := f.Topic
                         Key := .StringEncoder segmentObject.GetTraceSegmentId
                         Value := .ByteEncoder segment }])
          log
    | some (.SpanAttachedEvent _) =>
      forwardLoop Unmarshal f rest message (log ++ [spanAttachedWarning f])
    | _ => forwardLoop Unmarshal f rest message log

/-- Everything observable after a call of `Forward`. -/
structure ForwardExit (σ : Type) where
  ret : Outcome (Option GoError)
  adapter : Forwarder σ
  batch : BatchEvents
  message : List ProducerMessage
  world : Process σ

/-- The method `(*Forwarder).Forward`. -/
def Forwarder.Forward {σ : Type} (Unmarshal : List UInt8 → Except GoError SegmentObject)
    (f : Forwarder σ) (batch : BatchEvents) (w : Process σ) : ForwardExit σ :=
  let loop := forwardLoop Unmarshal f batch [] w.log
  match loop.err with
  | some err =>
    { ret := .returned (some err), adapter := f, batch := batch, message := loop.message
      world := { w with log := loop.log } }
  | none =>
    match f.producer with
    | none =>
      { ret := .panicked "invalid memory address or nil pointer dereference"
        adapter := f, batch := batch, message := loop.message
        world := { w with log := loop.log } }
    | some producer =>
      let r := producer.SendMessages w.broker loop.message
      { ret := .returned r.1, adapter := f, batch := batch, message := loop.message
        world := { broker := r.2, sent := w.sent ++ [loop.message], log := loop.log } }

/-! ## Synchronous invoke -/

/-- Everything observable after a call of `SyncForward`. -/
structure SyncForwardExit (σ : Type) where
  data : Option SniffData
  err : Option GoError
  adapter : Forwarder σ
  world : Process σ

/-- The method `(*Forwarder).SyncForward`. -/
def Forwarder.SyncForward {σ : Type} (f : Forwarder σ) (_e : Option SniffData)
    (w : Process σ) : SyncForwardExit σ :=
  { data := none, err := some (fmtErrorf "unsupport sync forward"), adapter := f, world := w }

/-- The method `(*Forwarder).SupportedSyncInvoke`. -/
def Forwarder.SupportedSyncInvoke {σ : Type} (_f : Forwarder σ) : Bool := false

/-! ## Classification of events and batches -/

/-- The event is of segment kind. -/
def isSegment (e : Option SniffData) : Bool :=
  match GetData e with
  | some (.Segment _) => true
  | _ => false

/-- The event is of span-attached kind. -/
def isSpanAttached (e : Option SniffData) : Bool :=
  match GetData e with
  | some (.SpanAttachedEvent _) => true
  | _ => false

/-- The payload bytes of the segment-kind events of a batch, in batch order. -/
def segmentPayloads (batch : BatchEvents) : List (List UInt8) :=
  batch.filterMap fun e =>
    match GetData e with
    | some (.Segment segment) => some segment
    | _ => none

/-- The event is a segment whose payload `Unmarshal` rejects with `err`. -/
def DecodeFailsWith (Unmarshal : List UInt8 → Except GoError SegmentObject)
    (e : Option SniffData) (err : GoError) : Prop :=
  ∃ segment, GetData e = some (.Segment segment) ∧ Unmarshal segment = .error err

/-- Every segment-kind event of the batch decodes. -/
def AllDecode (Unmarshal : List UInt8 → Except GoError SegmentObject)
    (batch : BatchEvents) : Prop :=
  ∀ e ∈ batch, ∀ segment, GetData e = some (.Segment segment) →
    ∃ segmentObject, Unmarshal segment = .ok segmentObject

/-- The message `Forward` builds for a segment payload that decodes to
`segmentObject`. -/
def IsTranslation {σ : Type} (Unmarshal : List UInt8 → Except GoError SegmentObject)
    (f : Forwarder σ) (segment : List UInt8) (m : ProducerMessage) : Prop :=
  ∃ segmentObject, Unmarshal segment = .ok segmentObject ∧
    m.Topic = f.Topic ∧
    m.Key = .StringEncoder segmentObject.TraceSegmentId ∧
    m.Value = .ByteEncoder segment

/-! ## Sample inputs -/

/-- A decoder for the examples: a payload starting with byte 255 is rejected,
the payload `[97, 98, 99]` carries the identifier `abc`, every other payload
the identifier `seg`. -/
def sampleUnmarshal (b : List UInt8) : Except GoError SegmentObject :=
  match b with
  | 255 :: _ => .error ⟨"proto: cannot parse invalid wire-format data"⟩
  | [97, 98, 99] =>
    .ok { TraceId := "t", TraceSegmentId := "abc", Service := "svc", ServiceInstance := "i" }
  | _ => .ok { TraceId := "t", TraceSegmentId := "seg", Service := "svc", ServiceInstance := "i" }

/-- A producer for the examples: it accepts every send and counts the messages
it was given. -/
def countingProducer : SyncProducer Nat :=
  { SendMessages := fun n ms => (none, n + ms.length) }

/-- A producer for the examples: it rejects every send. -/
def failingProducer : SyncProducer Nat :=
  { SendMessages := fun n _ => (some ⟨"kafka: Failed to deliver 1 messages."⟩, n) }

/-- A producer for the examples: it rejects exactly the empty send. -/
def strictProducer : SyncProducer Nat :=
  { SendMessages := fun n ms =>
      if ms.isEmpty then (some ⟨"kafka: empty message set"⟩, n) else (none, n + ms.length) }

/-- An adapter for the examples with the given producer. -/
def sampleForwarder (producer : Option (SyncProducer Nat)) : Forwarder Nat :=
  { PipeName := "pipe0", Topic := "skywalking-segments", producer := producer }

/-- An event for the examples with the given payload. -/
def sampleEvent (d : Option SniffData_Data) : Option SniffData :=
  some { Timestamp := 0, Name := "e", Remote := false, Meta := [], Data := d }

/-- The initial surroundings for the examples. -/
def sampleWorld : Process Nat := { broker := 0, sent := [], log := [] }

/-- A client factory for the examples: client 0 cannot be turned into a
producer, every other client yields the counting producer. -/
def sampleNewSyncProducerFromClient (client : Nat) : Except GoError (SyncProducer Nat) :=
  if client = 0 then .error ⟨"kafka: client closed"⟩ else .ok countingProducer

/-- A batch for the examples: a segment, a segment that does not decode, a
segment. -/
def corruptedBatch : BatchEvents :=
  [sampleEvent (some (.Segment [1, 2])), sampleEvent (some (.Segment [255, 0])),
   sampleEvent (some (.Segment [3]))]

/-- A batch for the examples: segments that decode among a span-attached event,
an event of another kind, an event without payload and a nil event. -/
def mixedBatch : BatchEvents :=
  [sampleEvent (some (.Segment [97, 98, 99])), sampleEvent (some (.SpanAttachedEvent [7])),
   sampleEvent (some (.Other 6 [1])), sampleEvent none, none,
   sampleEvent (some (.Segment [5]))]

/-- A batch for the examples: one span-attached event. -/
def spanOnlyBatch : BatchEvents := [sampleEvent (some (.SpanAttachedEvent [7]))]

/-! ## The loop -/

theorem forwardLoop_nil {σ : Type} (U : List UInt8 → Except GoError SegmentObject)
    (f : Forwarder σ) (m : List ProducerMessage) (l : List LogEntry) :
    forwardLoop U f [] m l = { message := m, log := l, err := none } := by
  simp [forwardLoop]

theorem forwardLoop_segment_ok {σ : Type} (U : List UInt8 → Except GoError SegmentObject)
    (f : Forwarder σ) (e : Option SniffData) (rest : BatchEvents)
    (m : List ProducerMessage) (l : List LogEntry) (segment : List UInt8)
    (so : SegmentObject) (hd : GetData e = some (.Segment segment))
    (hu : U segment = .ok so) :
    forwardLoop U f (e :: rest) m l =
      forwardLoop U f rest
        (m ++ [{ Topic := f.Topic, Key := .StringEncoder so.GetTraceSegmentId,
                 Value := .ByteEncoder segment }]) l := by
  simp [forwardLoop, hd, hu]

theorem forwardLoop_segment_error {σ : Type} (U : List UInt8 → Except GoError SegmentObject)
    (f : Forwarder σ) (e : Option SniffData) (rest : BatchEvents)
    (m : List ProducerMessage) (l : List LogEntry) (segment : List UInt8)
    (err : GoError) (hd : GetData e = some (.Segment segment))
    (hu : U segment = .error err) :
    forwardLoop U f (e :: rest) m l = { message := m, log := l, err := some err } := by
  simp [forwardLoop, hd, hu]

theorem forwardLoop_spanAttached {σ : Type} (U : List UInt8 → Except GoError SegmentObject)
    (f : Forwarder σ) (e : Option SniffData) (rest : BatchEvents)
    (m : List ProducerMessage) (l : List LogEntry) (hs : isSpanAttached e = true) :
    forwardLoop U f (e :: rest) m l =
      forwardLoop U f rest m (l ++ [spanAttachedWarning f]) := by
  unfold isSpanAttached at hs
  cases hd : GetData e with
  | none => simp [hd] at hs
  | some d =>
    cases d with
    | Segment s => simp [hd] at hs
    | SpanAttachedEvent x => simp [forwardLoop, hd]
    | Other k p => simp [hd] at hs

theorem forwardLoop_skip {σ : Type} (U : List UInt8 → Except GoError SegmentObject)
    (f : Forwarder σ) (e : Option SniffData) (rest : BatchEvents)
    (m : List ProducerMessage) (l : List LogEntry) (h1 : isSegment e = false)
    (h2 : isSpanAttached e = false) :
    forwardLoop U f (e :: rest) m l = forwardLoop U f rest m l := by
  unfold isSegment at h1
  unfold isSpanAttached at h2
  cases hd : GetData e with
  | none => simp [forwardLoop, hd]
  | some d =>
    cases d with
    | Segment s => simp [hd] at h1
    | SpanAttachedEvent x => simp [hd] at h2
    | Other k p => simp [forwardLoop, hd]

theorem isSegment_of_getData {e : Option SniffData} {segment : List UInt8}
    (hd : GetData e = some (.Segment segment)) : isSegment e = true := by
  simp [isSegment, hd]

theorem isSpanAttached_of_getData {e : Option SniffData} {segment : List UInt8}
    (hd : GetData e = some (.Segment segment)) : isSpanAttached e = false := by
  simp [isSpanAttached, hd]

theorem getData_of_isSegment {e : Option SniffData} (h : isSegment e = true) :
    ∃ segment, GetData e = some (.Segment segment) := by
  unfold isSegment at h
  cases hd : GetData e with
  | none => simp [hd] at h
  | some d =>
    cases d with
    | Segment s => exact ⟨s, rfl⟩
    | SpanAttachedEvent x => simp [hd] at h
    | Other k p => simp [hd] at h

theorem not_isSegment_of_isSpanAttached {e : Option SniffData}
    (h : isSpanAttached e = true) : isSegment e = false := by
  cases hs : isSegment e with
  | false => rfl
  | true =>
    obtain ⟨s, hd⟩ := getData_of_isSegment hs
    rw [isSpanAttached_of_getData hd] at h
    exact absurd h (by decide)

theorem segmentPayloads_cons_segment {e : Option SniffData} {segment : List UInt8}
    (rest : BatchEvents) (hd : GetData e = some (.Segment segment)) :
    segmentPayloads (e :: rest) = segment :: segmentPayloads rest := by
  simp [segmentPayloads, List.filterMap_cons, hd]

theorem segmentPayloads_cons_other {e : Option SniffData} (rest : BatchEvents)
    (h : isSegment e = false) : segmentPayloads (e :: rest) = segmentPayloads rest := by
  unfold isSegment at h
  cases hd : GetData e with
  | none => simp [segmentPayloads, List.filterMap_cons, hd]
  | some d =>
    cases d with
    | Segment s => simp [hd] at h
    | SpanAttachedEvent x => simp [segmentPayloads, List.filterMap_cons, hd]
    | Other k p => simp [segmentPayloads, List.filterMap_cons, hd]

theorem allDecode_cons {U : List UInt8 → Except GoError SegmentObject}
    {e : Option SniffData} {rest : BatchEvents} (h : AllDecode U (e :: rest)) :
    AllDecode U rest :=
  fun x hx => h x (List.mem_cons_of_mem e hx)

/-- Three ways an event can be met by the loop: a segment that decodes, a
segment that does not, or no segment at all. -/
theorem event_cases (U : List UInt8 → Except GoError SegmentObject) (e : Option SniffData) :
    (∃ segment so, GetData e = some (.Segment segment) ∧ U segment = .ok so) ∨
    (∃ err, DecodeFailsWith U e err) ∨ isSegment e = false := by
  cases hs : isSegment e with
  | false => exact Or.inr (Or.inr rfl)
  | true =>
    obtain ⟨s, hd⟩ := getData_of_isSegment hs
    cases hu : U s with
    | error err => exact Or.inr (Or.inl ⟨err, s, hd, hu⟩)
    | ok so => exact Or.inl ⟨s, so, hd, hu⟩

/-- What the loop does with an event that is no segment: it leaves the slice
alone and logs exactly when the event is span-attached. -/
theorem forwardLoop_non_segment {σ : Type} (U : List UInt8 → Except GoError SegmentObject)
    (f : Forwarder σ) (e : Option SniffData) (rest : BatchEvents)
    (m : List ProducerMessage) (l : List LogEntry) (h : isSegment e = false) :
    forwardLoop U f (e :: rest) m l =
      forwardLoop U f rest m
        (l ++ List.replicate (List.countP isSpanAttached [e]) (spanAttachedWarning f)) := by
  cases hs : isSpanAttached e with
  | false => simp [forwardLoop_skip U f e rest m l h hs, List.countP_cons, hs]
  | true => simp [forwardLoop_spanAttached U f e rest m l hs, List.countP_cons, hs]

/-- The loop on a batch whose segments all decode: no early return, one
translated message per segment payload in order, one warning per span-attached
event. -/
theorem forwardLoop_allDecode {σ : Type} (U : List UInt8 → Except GoError SegmentObject)
    (f : Forwarder σ) (batch : BatchEvents) (h : AllDecode U batch)
    (m : List ProducerMessage) (l : List LogEntry) :
    (forwardLoop U f batch m l).err = none ∧
    (forwardLoop U f batch m l).log =
      l ++ List.replicate (batch.countP isSpanAttached) (spanAttachedWarning f) ∧
    ∃ ms, (forwardLoop U f batch m l).message = m ++ ms ∧
      List.Forall₂ (IsTranslation U f) (segmentPayloads batch) ms := by
  induction batch generalizing m l with
  | nil =>
    refine ⟨by simp [forwardLoop], by simp [forwardLoop], [], by simp [forwardLoop], ?_⟩
    simp [segmentPayloads]
  | cons e rest ih =>
    rcases event_cases U e with ⟨s, so, hd, hu⟩ | ⟨err, s, hd, hu⟩ | hn
    · rw [forwardLoop_segment_ok U f e rest m l s so hd hu]
      obtain ⟨h1, h2, ms, h3, h4⟩ := ih (allDecode_cons h)
        (m ++ [{ Topic := f.Topic, Key := .StringEncoder so.GetTraceSegmentId,
                 Value := .ByteEncoder s }]) l
      refine ⟨h1, ?_, { Topic := f.Topic, Key := .StringEncoder so.GetTraceSegmentId,
                        Value := .ByteEncoder s } :: ms, ?_, ?_⟩
      · rw [h2, List.countP_cons, isSpanAttached_of_getData hd]
        simp
      · rw [h3]
        simp
      · rw [segmentPayloads_cons_segment rest hd]
        exact List.Forall₂.cons ⟨so, hu, rfl, rfl, rfl⟩ h4
    · obtain ⟨so, hso⟩ := h e (List.mem_cons_self e rest) s hd
      rw [hu] at hso
      cases hso
    · rw [forwardLoop_non_segment U f e rest m l hn]
      obtain ⟨h1, h2, ms, h3, h4⟩ := ih (allDecode_cons h) m
        (l ++ List.replicate (List.countP isSpanAttached [e]) (spanAttachedWarning f))
      refine ⟨h1, ?_, ms, h3, ?_⟩
      · rw [h2, List.append_assoc, ← List.replicate_add, List.countP_cons _ e rest]
        congr 2
        simp [List.countP_cons, Nat.add_comm]
      · rw [segmentPayloads_cons_other rest hn]
        exact h4

/-- The loop on a batch whose first undecodable segment is `e`: it stops there
with that error, holding what the events before `e` produced. -/
theorem forwardLoop_first_failure {σ : Type} (U : List UInt8 → Except GoError SegmentObject)
    (f : Forwarder σ) (pre : BatchEvents) (e : Option SniffData) (post : BatchEvents)
    (err : GoError) (hpre : AllDecode U pre) (hfail : DecodeFailsWith U e err)
    (m : List ProducerMessage) (l : List LogEntry) :
    forwardLoop U f (pre ++ e :: post) m l =
      { message := (forwardLoop U f pre m l).message
        log := (forwardLoop U f pre m l).log
        err := some err } := by
  induction pre generalizing m l with
  | nil =>
    obtain ⟨s, hd, hu⟩ := hfail
    simp [forwardLoop_segment_error U f e post m l s err hd hu, forwardLoop_nil]
  | cons x rest ih =>
    rcases event_cases U x with ⟨s, so, hd, hu⟩ | ⟨err2, s, hd, hu⟩ | hn
    · rw [List.cons_append, forwardLoop_segment_ok U f x _ m l s so hd hu,
        forwardLoop_segment_ok U f x rest m l s so hd hu]
      exact ih (allDecode_cons hpre) _ l
    · obtain ⟨so, hso⟩ := hpre x (List.mem_cons_self x rest) s hd
      rw [hu] at hso
      cases hso
    · rw [List.cons_append, forwardLoop_non_segment U f x _ m l hn,
        forwardLoop_non_segment U f x rest m l hn]
      exact ih (allDecode_cons hpre) m _

/-- A batch with an undecodable segment splits at the first one. -/
theorem exists_first_failure (U : List UInt8 → Except GoError SegmentObject)
    (batch : BatchEvents) (h : ∃ e ∈ batch, ∃ err, DecodeFailsWith U e err) :
    ∃ pre e post err, batch = pre ++ e :: post ∧ AllDecode U pre ∧
      DecodeFailsWith U e err := by
  induction batch with
  | nil =>
    obtain ⟨e, he, _⟩ := h
    cases he
  | cons x rest ih =>
    rcases event_cases U x with ⟨s, so, hd, hu⟩ | ⟨err, hx⟩ | hn
    · have hrest : ∃ e ∈ rest, ∃ err, DecodeFailsWith U e err := by
        obtain ⟨e, he, err, s2, hd2, hu2⟩ := h
        rcases List.mem_cons.mp he with rfl | hmem
        · rw [hd] at hd2
          cases hd2
          rw [hu] at hu2
          cases hu2
        · exact ⟨e, hmem, err, s2, hd2, hu2⟩
      obtain ⟨pre, e, post, err, hb, hp, hf⟩ := ih hrest
      refine ⟨x :: pre, e, post, err, by rw [hb]; rfl, ?_, hf⟩
      intro y hy s2 hd2
      rcases List.mem_cons.mp hy with rfl | hmem
      · rw [hd] at hd2
        cases hd2
        exact ⟨so, hu⟩
      · exact hp y hmem s2 hd2
    · exact ⟨[], x, rest, err, rfl, fun y hy => absurd hy (List.not_mem_nil y), hx⟩
    · have hrest : ∃ e ∈ rest, ∃ err, DecodeFailsWith U e err := by
        obtain ⟨e, he, err, s2, hd2, hu2⟩ := h
        rcases List.mem_cons.mp he with rfl | hmem
        · rw [isSegment_of_getData hd2] at hn
          cases hn
        · exact ⟨e, hmem, err, s2, hd2, hu2⟩
      obtain ⟨pre, e, post, err, hb, hp, hf⟩ := ih hrest
      refine ⟨x :: pre, e, post, err, by rw [hb]; rfl, ?_, hf⟩
      intro y hy s2 hd2
      rcases List.mem_cons.mp hy with rfl | hmem
      · rw [isSegment_of_getData hd2] at hn
        cases hn
      · exact hp y hmem s2 hd2

/-- A batch either has all its segments decode or holds an undecodable one. -/
theorem allDecode_or_failure (U : List UInt8 → Except GoError SegmentObject)
    (batch : BatchEvents) :
    AllDecode U batch ∨ ∃ e ∈ batch, ∃ err, DecodeFailsWith U e err := by
  by_cases h : ∃ e ∈ batch, ∃ err, DecodeFailsWith U e err
  · exact Or.inr h
  · refine Or.inl ?_
    intro e he s hd
    cases hu : U s with
    | ok so => exact ⟨so, rfl⟩
    | error err => exact absurd ⟨e, he, err, s, hd, hu⟩ h

/-- The two alternatives of `allDecode_or_failure` exclude each other. -/
theorem not_allDecode_of_failure {U : List UInt8 → Except GoError SegmentObject}
    {batch : BatchEvents} (h : ∃ e ∈ batch, ∃ err, DecodeFailsWith U e err) :
    ¬ AllDecode U batch := by
  intro hall
  obtain ⟨e, he, err, s, hd, hu⟩ := h
  obtain ⟨so, hso⟩ := hall e he s hd
  rw [hu] at hso
  cases hso

/-- The slice grows by at most one message per segment-kind event visited. -/
theorem forwardLoop_length_le {σ : Type} (U : List UInt8 → Except GoError SegmentObject)
    (f : Forwarder σ) (batch : BatchEvents) (m : List ProducerMessage) (l : List LogEntry) :
    (forwardLoop U f batch m l).message.length ≤ m.length + batch.countP isSegment := by
  induction batch generalizing m l with
  | nil => simp [forwardLoop]
  | cons e rest ih =>
    rcases event_cases U e with ⟨s, so, hd, hu⟩ | ⟨err, s, hd, hu⟩ | hn
    · rw [forwardLoop_segment_ok U f e rest m l s so hd hu, List.countP_cons,
        isSegment_of_getData hd]
      have := ih (m ++ [{ Topic := f.Topic, Key := .StringEncoder so.GetTraceSegmentId,
                          Value := .ByteEncoder s }]) l
      simp at this ⊢
      omega
    · rw [forwardLoop_segment_error U f e rest m l s err hd hu]
      simp
    · rw [forwardLoop_non_segment U f e rest m l hn, List.countP_cons _ e rest, hn]
      have := ih m (l ++ List.replicate (List.countP isSpanAttached [e]) (spanAttachedWarning f))
      simp at this ⊢
      omega

/-- The slice and the early-return error do not depend on the log the loop
started with. -/
theorem forwardLoop_log_irrelevant {σ : Type} (U : List UInt8 → Except GoError SegmentObject)
    (f : Forwarder σ) (batch : BatchEvents) (m : List ProducerMessage)
    (l l2 : List LogEntry) :
    (forwardLoop U f batch m l).message = (forwardLoop U f batch m l2).message ∧
    (forwardLoop U f batch m l).err = (forwardLoop U f batch m l2).err := by
  induction batch generalizing m l l2 with
  | nil => simp [forwardLoop]
  | cons e rest ih =>
    rcases event_cases U e with ⟨s, so, hd, hu⟩ | ⟨err, s, hd, hu⟩ | hn
    · rw [forwardLoop_segment_ok U f e rest m l s so hd hu,
        forwardLoop_segment_ok U f e rest m l2 s so hd hu]
      exact ih _ l l2
    · rw [forwardLoop_segment_error U f e rest m l s err hd hu,
        forwardLoop_segment_error U f e rest m l2 s err hd hu]
      exact ⟨rfl, rfl⟩
    · rw [forwardLoop_non_segment U f e rest m l hn,
        forwardLoop_non_segment U f e rest m l2 hn]
      exact ih m _ _

/-- Segment-kind events are fewer than the events as soon as one event is of
another kind. -/
theorem countP_isSegment_lt (batch : BatchEvents)
    (h : ∃ e ∈ batch, isSegment e = false) : batch.countP isSegment < batch.length := by
  apply lt_of_le_of_ne (List.countP_le_length isSegment)
  intro heq
  obtain ⟨e, he, hn⟩ := h
  have := (List.countP_eq_length.mp heq) e he
  rw [hn] at this
  cases this

theorem length_segmentPayloads (batch : BatchEvents) :
    (segmentPayloads batch).length = batch.countP isSegment := by
  induction batch with
  | nil => simp [segmentPayloads]
  | cons e rest ih =>
    cases hs : isSegment e with
    | false => rw [segmentPayloads_cons_other rest hs, List.countP_cons, hs, ih]; simp
    | true =>
      obtain ⟨s, hd⟩ := getData_of_isSegment hs
      rw [segmentPayloads_cons_segment rest hd, List.countP_cons, hs, List.length_cons, ih]
      simp

/-! ## The three ways out of `Forward` -/

theorem Forward_of_loop_error {σ : Type} (U : List UInt8 → Except GoError SegmentObject)
    (f : Forwarder σ) (batch : BatchEvents) (w : Process σ) (err : GoError)
    (h : (forwardLoop U f batch [] w.log).err = some err) :
    f.Forward U batch w =
      { ret := .returned (some err), adapter := f, batch := batch
        message := (forwardLoop U f batch [] w.log).message
        world := { w with log := (forwardLoop U f batch [] w.log).log } } := by
  simp [Forwarder.Forward, h]

theorem Forward_of_nil_producer {σ : Type} (U : List UInt8 → Except GoError SegmentObject)
    (f : Forwarder σ) (batch : BatchEvents) (w : Process σ)
    (h : (forwardLoop U f batch [] w.log).err = none) (hp : f.producer = none) :
    f.Forward U batch w =
      { ret := .panicked "invalid memory address or nil pointer dereference"
        adapter := f, batch := batch
        message := (forwardLoop U f batch [] w.log).message
        world := { w with log := (forwardLoop U f batch [] w.log).log } } := by
  simp [Forwarder.Forward, h, hp]

theorem Forward_of_send {σ : Type} (U : List UInt8 → Except GoError SegmentObject)
    (f : Forwarder σ) (batch : BatchEvents) (w : Process σ) (p : SyncProducer σ)
    (h : (forwardLoop U f batch [] w.log).err = none) (hp : f.producer = some p) :
    f.Forward U batch w =
      { ret := .returned (p.SendMessages w.broker (forwardLoop U f batch [] w.log).message).1
        adapter := f, batch := batch
        message := (forwardLoop U f batch [] w.log).message
        world :=
          { broker := (p.SendMessages w.broker (forwardLoop U f batch [] w.log).message).2
            sent := w.sent ++ [(forwardLoop U f batch [] w.log).message]
            log := (forwardLoop U f batch [] w.log).log } } := by
  simp [Forwarder.Forward, h, hp]

theorem Forward_message {σ : Type} (U : List UInt8 → Except GoError SegmentObject)
    (f : Forwarder σ) (batch : BatchEvents) (w : Process σ) :
    (f.Forward U batch w).message = (forwardLoop U f batch [] w.log).message := by
  cases h : (forwardLoop U f batch [] w.log).err with
  | some err => rw [Forward_of_loop_error U f batch w err h]
  | none =>
    cases hp : f.producer with
    | none => rw [Forward_of_nil_producer U f batch w h hp]
    | some p => rw [Forward_of_send U f batch w p h hp]

theorem Forward_log {σ : Type} (U : List UInt8 → Except GoError SegmentObject)
    (f : Forwarder σ) (batch : BatchEvents) (w : Process σ) :
    (f.Forward U batch w).world.log = (forwardLoop U f batch [] w.log).log := by
  cases h : (forwardLoop U f batch [] w.log).err with
  | some err => rw [Forward_of_loop_error U f batch w err h]
  | none =>
    cases hp : f.producer with
    | none => rw [Forward_of_nil_producer U f batch w h hp]
    | some p => rw [Forward_of_send U f batch w p h hp]

/-- A call on a batch with an undecodable segment: the error of the first one
comes back, and neither the send list nor the broker moves. -/
theorem Forward_of_failure {σ : Type} (U : List UInt8 → Except GoError SegmentObject)
    (f : Forwarder σ) (pre : BatchEvents) (e : Option SniffData) (post : BatchEvents)
    (err : GoError) (w : Process σ) (hpre : AllDecode U pre)
    (hfail : DecodeFailsWith U e err) :
    (f.Forward U (pre ++ e :: post) w).ret = .returned (some err) ∧
    (f.Forward U (pre ++ e :: post) w).world.sent = w.sent ∧
    (f.Forward U (pre ++ e :: post) w).world.broker = w.broker ∧
    (f.Forward U (pre ++ e :: post) w).adapter = f := by
  have h : (forwardLoop U f (pre ++ e :: post) [] w.log).err = some err := by
    rw [forwardLoop_first_failure U f pre e post err hpre hfail]
  rw [Forward_of_loop_error U f _ w err h]
  exact ⟨rfl, rfl, rfl, rfl⟩

/-! ## Properties of `Forward` -/

/-- C1: when some segment-kind event of the batch fails to decode, the batch
splits at the first such event, `Forward` returns exactly that event's decode
error, and the producer's send is not called: the list of sends and the broker
are as before the call, whatever the events before it produced. -/
theorem Forward_decode_error_aborts {σ : Type}
    (U : List UInt8 → Except GoError SegmentObject) (f : Forwarder σ)
    (batch : BatchEvents) (w : Process σ)
    (h : ∃ e ∈ batch, ∃ err, DecodeFailsWith U e err) :
    ∃ pre e post err, batch = pre ++ e :: post ∧ AllDecode U pre ∧
      DecodeFailsWith U e err ∧
      (f.Forward U batch w).ret = .returned (some err) ∧
      (f.Forward U batch w).world.sent = w.sent ∧
      (f.Forward U batch w).world.broker = w.broker := by
  obtain ⟨pre, e, post, err, hb, hpre, hfail⟩ := exists_first_failure U batch h
  obtain ⟨h1, h2, h3, _⟩ := Forward_of_failure U f pre e post err w hpre hfail
  subst hb
  exact ⟨pre, e, post, err, rfl, hpre, hfail, h1, h2, h3⟩

/-- C2: when every segment-kind event decodes, the slice `Forward` builds pairs
off, in order and one to one, with the payloads of the batch's segment-kind
events: the message of a payload has the adapter's topic, the decoded
trace-segment identifier as key and the payload bytes themselves as value.
With a producer set, that slice is the one argument of the one send. -/
theorem Forward_messages_exact {σ : Type}
    (U : List UInt8 → Except GoError SegmentObject) (f : Forwarder σ)
    (batch : BatchEvents) (w : Process σ) (h : AllDecode U batch) :
    List.Forall₂ (IsTranslation U f) (segmentPayloads batch) (f.Forward U batch w).message ∧
    ∀ p, f.producer = some p →
      (f.Forward U batch w).world.sent = w.sent ++ [(f.Forward U batch w).message] := by
  obtain ⟨h1, _, ms, h3, h4⟩ := forwardLoop_allDecode U f batch h [] w.log
  constructor
  · rw [Forward_message, h3]
    exact h4
  · intro p hp
    rw [Forward_of_send U f batch w p h1 hp]

theorem corruptedBatch_fails :
    ∃ e ∈ corruptedBatch, ∃ err, DecodeFailsWith sampleUnmarshal e err :=
  ⟨sampleEvent (some (.Segment [255, 0])), by simp [corruptedBatch],
    ⟨"proto: cannot parse invalid wire-format data"⟩, [255, 0], rfl, rfl⟩

theorem mixedBatch_allDecode : AllDecode sampleUnmarshal mixedBatch := by
  intro e he s hd
  simp only [mixedBatch, List.mem_cons, List.mem_singleton, List.not_mem_nil, or_false] at he
  rcases he with rfl | rfl | rfl | rfl | rfl | rfl
  · cases hd; exact ⟨_, rfl⟩
  · cases hd
  · cases hd
  · cases hd
  · cases hd
  · cases hd; exact ⟨_, rfl⟩

/-- Witness of C1 on the batch segment, corrupted segment, segment. -/
theorem Forward_decode_error_aborts_witness :
    (∃ e ∈ corruptedBatch, ∃ err, DecodeFailsWith sampleUnmarshal e err) ∧
    (∃ pre e post err, corruptedBatch = pre ++ e :: post ∧ AllDecode sampleUnmarshal pre ∧
      DecodeFailsWith sampleUnmarshal e err ∧
      ((sampleForwarder (some countingProducer)).Forward sampleUnmarshal corruptedBatch
        sampleWorld).ret = .returned (some err) ∧
      ((sampleForwarder (some countingProducer)).Forward sampleUnmarshal corruptedBatch
        sampleWorld).world.sent = sampleWorld.sent ∧
      ((sampleForwarder (some countingProducer)).Forward sampleUnmarshal corruptedBatch
        sampleWorld).world.broker = sampleWorld.broker) ∧
    ((sampleForwarder (some countingProducer)).Forward sampleUnmarshal corruptedBatch
        sampleWorld).ret =
      .returned (some ⟨"proto: cannot parse invalid wire-format data"⟩) :=
  ⟨corruptedBatch_fails,
    Forward_decode_error_aborts sampleUnmarshal (sampleForwarder (some countingProducer))
      corruptedBatch sampleWorld corruptedBatch_fails,
    by decide⟩

/-- Witness of C2 on a batch mixing two segments with four other events. -/
theorem Forward_messages_exact_witness :
    AllDecode sampleUnmarshal mixedBatch ∧
    (List.Forall₂ (IsTranslation sampleUnmarshal (sampleForwarder (some countingProducer)))
        (segmentPayloads mixedBatch)
        ((sampleForwarder (some countingProducer)).Forward sampleUnmarshal mixedBatch
          sampleWorld).message ∧
      ∀ p, (sampleForwarder (some countingProducer)).producer = some p →
        ((sampleForwarder (some countingProducer)).Forward sampleUnmarshal mixedBatch
          sampleWorld).world.sent =
        sampleWorld.sent ++
          [((sampleForwarder (some countingProducer)).Forward sampleUnmarshal mixedBatch
            sampleWorld).message]) ∧
    ((sampleForwarder (some countingProducer)).Forward sampleUnmarshal mixedBatch
        sampleWorld).message =
      [{ Topic := "skywalking-segments", Key := .StringEncoder "abc",
         Value := .ByteEncoder [97, 98, 99] },
       { Topic := "skywalking-segments", Key := .StringEncoder "seg",
         Value := .ByteEncoder [5] }] :=
  ⟨mixedBatch_allDecode,
    Forward_messages_exact sampleUnmarshal (sampleForwarder (some countingProducer))
      mixedBatch sampleWorld mixedBatch_allDecode,
    by decide⟩

/-- A batch without segment-kind event has all its segments decode, there being
none, and has no segment payload. -/
theorem no_segment_facts (U : List UInt8 → Except GoError SegmentObject)
    (batch : BatchEvents) (h : ∀ e ∈ batch, isSegment e = false) :
    AllDecode U batch ∧ segmentPayloads batch = [] := by
  constructor
  · intro e he s hd
    have hs := h e he
    rw [isSegment_of_getData hd] at hs
    cases hs
  · apply List.eq_nil_of_length_eq_zero
    rw [length_segmentPayloads, List.countP_eq_zero]
    intro e he
    simp [h e he]

/-- C3, against the claim: on the batch of one span-attached event, which has
no segment-kind event, `Forward` does call the producer's send, once and with
the empty message list, so the list of sends is not what it was; the same on
the empty batch; and with a producer that rejects the empty list the call does
not return success. -/
theorem Forward_no_segment_still_sends :
    (∀ e ∈ spanOnlyBatch, isSegment e = false) ∧
    ((sampleForwarder (some countingProducer)).Forward sampleUnmarshal spanOnlyBatch
      sampleWorld).world.sent = [[]] ∧
    ((sampleForwarder (some countingProducer)).Forward sampleUnmarshal spanOnlyBatch
      sampleWorld).world.sent ≠ sampleWorld.sent ∧
    ((sampleForwarder (some countingProducer)).Forward sampleUnmarshal []
      sampleWorld).world.sent = [[]] ∧
    ((sampleForwarder (some strictProducer)).Forward sampleUnmarshal spanOnlyBatch
      sampleWorld).ret = .returned (some ⟨"kafka: empty message set"⟩) := by
  refine ⟨?_, by decide, by decide, by decide, by decide⟩
  intro e he
  simp only [spanOnlyBatch, List.mem_singleton] at he
  subst he
  rfl

/-- C3, amended: for a batch without segment-kind event and an adapter whose
producer is set, `Forward` builds no message, calls the producer's send exactly
once, with the empty message list, and returns exactly what that send returns;
the broker is left as that send leaves it. -/
theorem Forward_no_segment_sends_empty {σ : Type}
    (U : List UInt8 → Except GoError SegmentObject) (f : Forwarder σ)
    (batch : BatchEvents) (w : Process σ) (p : SyncProducer σ)
    (h : ∀ e ∈ batch, isSegment e = false) (hp : f.producer = some p) :
    (f.Forward U batch w).message = [] ∧
    (f.Forward U batch w).world.sent = w.sent ++ [[]] ∧
    (f.Forward U batch w).ret = .returned (p.SendMessages w.broker []).1 ∧
    (f.Forward U batch w).world.broker = (p.SendMessages w.broker []).2 := by
  obtain ⟨hall, hnil⟩ := no_segment_facts U batch h
  obtain ⟨h1, _, ms, h3, h4⟩ := forwardLoop_allDecode U f batch hall [] w.log
  rw [hnil] at h4
  cases h4
  rw [Forward_of_send U f batch w p h1 hp, h3]
  exact ⟨rfl, rfl, rfl, rfl⟩

/-- Witness of the amended C3 on the batch of one span-attached event. -/
theorem Forward_no_segment_sends_empty_witness :
    (∀ e ∈ spanOnlyBatch, isSegment e = false) ∧
    (sampleForwarder (some countingProducer)).producer = some countingProducer ∧
    (((sampleForwarder (some countingProducer)).Forward sampleUnmarshal spanOnlyBatch
        sampleWorld).message = [] ∧
      ((sampleForwarder (some countingProducer)).Forward sampleUnmarshal spanOnlyBatch
        sampleWorld).world.sent = sampleWorld.sent ++ [[]] ∧
      ((sampleForwarder (some countingProducer)).Forward sampleUnmarshal spanOnlyBatch
        sampleWorld).ret = .returned (countingProducer.SendMessages sampleWorld.broker []).1 ∧
      ((sampleForwarder (some countingProducer)).Forward sampleUnmarshal spanOnlyBatch
        sampleWorld).world.broker =
        (countingProducer.SendMessages sampleWorld.broker []).2) :=
  have hb : ∀ e ∈ spanOnlyBatch, isSegment e = false := by
    intro e he
    simp only [spanOnlyBatch, List.mem_singleton] at he
    subst he
    rfl
  ⟨hb, rfl,
    Forward_no_segment_sends_empty sampleUnmarshal (sampleForwarder (some countingProducer))
      spanOnlyBatch sampleWorld countingProducer hb rfl⟩

/-- C4: `Forward` returns success exactly when every segment-kind event decodes
and the send, made on a producer that is set, succeeds. When every segment
decodes and the producer is set, the result is the producer's send result
unchanged and the one send carries the slice built. In every case the call
adds at most one send. -/
theorem Forward_success_iff {σ : Type}
    (U : List UInt8 → Except GoError SegmentObject) (f : Forwarder σ)
    (batch : BatchEvents) (w : Process σ) :
    ((f.Forward U batch w).ret = .returned none ↔
      AllDecode U batch ∧ ∃ p, f.producer = some p ∧
        (p.SendMessages w.broker (f.Forward U batch w).message).1 = none) ∧
    (AllDecode U batch → ∀ p, f.producer = some p →
      (f.Forward U batch w).ret =
        .returned (p.SendMessages w.broker (f.Forward U batch w).message).1 ∧
      (f.Forward U batch w).world.sent = w.sent ++ [(f.Forward U batch w).message] ∧
      (f.Forward U batch w).world.broker =
        (p.SendMessages w.broker (f.Forward U batch w).message).2) ∧
    ((f.Forward U batch w).world.sent = w.sent ∨
      (f.Forward U batch w).world.sent = w.sent ++ [(f.Forward U batch w).message]) := by
  rcases allDecode_or_failure U batch with hall | hfail
  · obtain ⟨h1, _, _⟩ := forwardLoop_allDecode U f batch hall [] w.log
    cases hp : f.producer with
    | none =>
      rw [Forward_of_nil_producer U f batch w h1 hp]
      refine ⟨⟨fun h => (by cases h), fun h => ?_⟩, fun _ p hp2 => (by cases hp2), Or.inl rfl⟩
      obtain ⟨_, p, hp2, _⟩ := h
      cases hp2
    | some p =>
      rw [Forward_of_send U f batch w p h1 hp]
      refine ⟨⟨fun h => ⟨hall, p, rfl, ?_⟩, fun h => ?_⟩, fun _ q hq => ?_, Or.inr rfl⟩
      · simpa using h
      · obtain ⟨_, q, hq, hs⟩ := h
        cases hq
        simp only at hs
        rw [hs]
      · cases hq
        exact ⟨rfl, rfl, rfl⟩
  · have hnot := not_allDecode_of_failure hfail
    obtain ⟨pre, e, post, err, hb, hpre, hf⟩ := exists_first_failure U batch hfail
    obtain ⟨h1, h2, _, _⟩ := Forward_of_failure U f pre e post err w hpre hf
    rw [← hb] at h1 h2
    refine ⟨⟨fun h => ?_, fun h => absurd h.1 hnot⟩, fun h => absurd h hnot, Or.inl h2⟩
    rw [h1] at h
    cases h

/-- Witness of C4: a batch whose segments decode, sent through a producer that
rejects every send, returns that producer's error unchanged after one send. -/
theorem Forward_success_iff_witness :
    AllDecode sampleUnmarshal mixedBatch ∧
    ((sampleForwarder (some failingProducer)).Forward sampleUnmarshal mixedBatch
      sampleWorld).ret =
      .returned (failingProducer.SendMessages sampleWorld.broker
        ((sampleForwarder (some failingProducer)).Forward sampleUnmarshal mixedBatch
          sampleWorld).message).1 ∧
    ((sampleForwarder (some failingProducer)).Forward sampleUnmarshal mixedBatch
      sampleWorld).ret = .returned (some ⟨"kafka: Failed to deliver 1 messages."⟩) ∧
    ((sampleForwarder (some failingProducer)).Forward sampleUnmarshal mixedBatch
      sampleWorld).world.sent.length = 1 :=
  ⟨mixedBatch_allDecode,
    ((Forward_success_iff sampleUnmarshal (sampleForwarder (some failingProducer)) mixedBatch
      sampleWorld).2.1 mixedBatch_allDecode failingProducer rfl).1,
    by decide, by decide⟩

/-- C6: when every segment-kind event decodes, the log after `Forward` is the
log before it followed by one warning per span-attached event of the batch and
nothing else, so the warnings added number the span-attached events and events
of other kinds add no record. No span-attached event ends the call: every
segment payload of the batch, those after a span-attached event included, has
its message in the slice, and with a producer set the slice is sent. -/
theorem Forward_warnings {σ : Type}
    (U : List UInt8 → Except GoError SegmentObject) (f : Forwarder σ)
    (batch : BatchEvents) (w : Process σ) (h : AllDecode U batch) :
    (f.Forward U batch w).world.log =
      w.log ++ List.replicate (batch.countP isSpanAttached) (spanAttachedWarning f) ∧
    (f.Forward U batch w).world.log.length = w.log.length + batch.countP isSpanAttached ∧
    (spanAttachedWarning f).level = .Warn ∧
    List.Forall₂ (IsTranslation U f) (segmentPayloads batch) (f.Forward U batch w).message ∧
    (∀ p, f.producer = some p →
      (f.Forward U batch w).ret =
        .returned (p.SendMessages w.broker (f.Forward U batch w).message).1 ∧
      (f.Forward U batch w).world.sent = w.sent ++ [(f.Forward U batch w).message]) := by
  obtain ⟨h1, h2, ms, h3, h4⟩ := forwardLoop_allDecode U f batch h [] w.log
  refine ⟨?_, ?_, rfl, ?_, ?_⟩
  · rw [Forward_log, h2]
  · rw [Forward_log, h2]
    simp
  · rw [Forward_message, h3]
    exact h4
  · intro p hp
    rw [Forward_of_send U f batch w p h1 hp]
    exact ⟨rfl, rfl⟩

/-- Witness of C6: the mixed batch holds one span-attached event before its last
segment; one warning is logged and both segments are sent. -/
theorem Forward_warnings_witness :
    AllDecode sampleUnmarshal mixedBatch ∧
    ((sampleForwarder (some countingProducer)).Forward sampleUnmarshal mixedBatch
      sampleWorld).world.log =
      sampleWorld.log ++ List.replicate (mixedBatch.countP isSpanAttached)
        (spanAttachedWarning (sampleForwarder (some countingProducer))) ∧
    mixedBatch.countP isSpanAttached = 1 ∧
    ((sampleForwarder (some countingProducer)).Forward sampleUnmarshal mixedBatch
      sampleWorld).world.log.length = 1 ∧
    ((sampleForwarder (some countingProducer)).Forward sampleUnmarshal mixedBatch
      sampleWorld).world.sent =
      [[{ Topic := "skywalking-segments", Key := .StringEncoder "abc",
          Value := .ByteEncoder [97, 98, 99] },
        { Topic := "skywalking-segments", Key := .StringEncoder "seg",
          Value := .ByteEncoder [5] }]] :=
  ⟨mixedBatch_allDecode,
    (Forward_warnings sampleUnmarshal (sampleForwarder (some countingProducer)) mixedBatch
      sampleWorld mixedBatch_allDecode).1,
    by decide, by decide, by decide⟩

/-- C7: the slice `Forward` builds holds at most as many messages as the batch
holds events, strictly fewer as soon as one event of the batch is not of
segment kind, and exactly as many as there are segment-kind events when all of
them decode. What the call sends is nothing or that slice. -/
theorem Forward_message_count {σ : Type}
    (U : List UInt8 → Except GoError SegmentObject) (f : Forwarder σ)
    (batch : BatchEvents) (w : Process σ) :
    (f.Forward U batch w).message.length ≤ batch.length ∧
    ((∃ e ∈ batch, isSegment e = false) →
      (f.Forward U batch w).message.length < batch.length) ∧
    (AllDecode U batch →
      (f.Forward U batch w).message.length = batch.countP isSegment) ∧
    ((f.Forward U batch w).world.sent = w.sent ∨
      (f.Forward U batch w).world.sent = w.sent ++ [(f.Forward U batch w).message]) := by
  have hle := forwardLoop_length_le U f batch [] w.log
  simp only [List.length_nil, Nat.zero_add] at hle
  refine ⟨?_, ?_, ?_, ?_⟩
  · rw [Forward_message]
    exact le_trans hle (List.countP_le_length isSegment)
  · intro h
    rw [Forward_message]
    exact lt_of_le_of_lt hle (countP_isSegment_lt batch h)
  · intro h
    obtain ⟨_, _, ms, h3, h4⟩ := forwardLoop_allDecode U f batch h [] w.log
    rw [Forward_message, h3, List.nil_append, ← h4.length_eq, length_segmentPayloads]
  · cases h : (forwardLoop U f batch [] w.log).err with
    | some err =>
      rw [Forward_of_loop_error U f batch w err h]
      exact Or.inl rfl
    | none =>
      cases hp : f.producer with
      | none =>
        rw [Forward_of_nil_producer U f batch w h hp]
        exact Or.inl rfl
      | some p =>
        rw [Forward_of_send U f batch w p h hp]
        exact Or.inr rfl

/-- Witness of C7: the mixed batch has six events, four of them no segment, and
yields two messages; the corrupted batch yields one message for three
events. -/
theorem Forward_message_count_witness :
    (∃ e ∈ mixedBatch, isSegment e = false) ∧
    AllDecode sampleUnmarshal mixedBatch ∧
    ((sampleForwarder (some countingProducer)).Forward sampleUnmarshal mixedBatch
      sampleWorld).message.length < mixedBatch.length ∧
    ((sampleForwarder (some countingProducer)).Forward sampleUnmarshal mixedBatch
      sampleWorld).message.length = mixedBatch.countP isSegment ∧
    ((sampleForwarder (some countingProducer)).Forward sampleUnmarshal mixedBatch
      sampleWorld).message.length = 2 ∧
    ((sampleForwarder (some countingProducer)).Forward sampleUnmarshal corruptedBatch
      sampleWorld).message.length = 1 :=
  have hex : ∃ e ∈ mixedBatch, isSegment e = false :=
    ⟨none, by simp [mixedBatch], rfl⟩
  ⟨hex, mixedBatch_allDecode,
    (Forward_message_count sampleUnmarshal (sampleForwarder (some countingProducer))
      mixedBatch sampleWorld).2.1 hex,
    (Forward_message_count sampleUnmarshal (sampleForwarder (some countingProducer))
      mixedBatch sampleWorld).2.2.1 mixedBatch_allDecode,
    by decide, by decide⟩

theorem Forward_adapter {σ : Type} (U : List UInt8 → Except GoError SegmentObject)
    (f : Forwarder σ) (batch : BatchEvents) (w : Process σ) :
    (f.Forward U batch w).adapter = f ∧ (f.Forward U batch w).batch = batch := by
  cases h : (forwardLoop U f batch [] w.log).err with
  | some err =>
    rw [Forward_of_loop_error U f batch w err h]
    exact ⟨rfl, rfl⟩
  | none =>
    cases hp : f.producer with
    | none =>
      rw [Forward_of_nil_producer U f batch w h hp]
      exact ⟨rfl, rfl⟩
    | some p =>
      rw [Forward_of_send U f batch w p h hp]
      exact ⟨rfl, rfl⟩

/-- Two calls that start from the same broker and the same list of sends build
the same slice, return the same result and leave the same broker and sends,
whatever the logs they start from. -/
theorem Forward_log_irrelevant {σ : Type} (U : List UInt8 → Except GoError SegmentObject)
    (f : Forwarder σ) (batch : BatchEvents) (w w2 : Process σ)
    (hb : w.broker = w2.broker) (hs : w.sent = w2.sent) :
    (f.Forward U batch w).message = (f.Forward U batch w2).message ∧
    (f.Forward U batch w).ret = (f.Forward U batch w2).ret ∧
    (f.Forward U batch w).world.sent = (f.Forward U batch w2).world.sent ∧
    (f.Forward U batch w).world.broker = (f.Forward U batch w2).world.broker := by
  obtain ⟨hm, he⟩ := forwardLoop_log_irrelevant U f batch [] w.log w2.log
  cases h : (forwardLoop U f batch [] w.log).err with
  | some err =>
    have h2 : (forwardLoop U f batch [] w2.log).err = some err := by rw [← he, h]
    rw [Forward_of_loop_error U f batch w err h, Forward_of_loop_error U f batch w2 err h2]
    exact ⟨hm, rfl, hs, hb⟩
  | none =>
    have h2 : (forwardLoop U f batch [] w2.log).err = none := by rw [← he, h]
    cases hp : f.producer with
    | none =>
      rw [Forward_of_nil_producer U f batch w h hp,
        Forward_of_nil_producer U f batch w2 h2 hp]
      exact ⟨hm, rfl, hs, hb⟩
    | some p =>
      rw [Forward_of_send U f batch w p h hp, Forward_of_send U f batch w2 p h2 hp]
      simp only
      rw [hm, hb, hs]
      exact ⟨rfl, rfl, rfl, rfl⟩

/-- C8: whatever `Forward` returns, the adapter after the call is the adapter
before it, topic and producer handle included, and the batch is the batch
passed in. After a call that failed on decoding, a further call on any batch
builds the same slice, returns the same result and leaves the same sends and
broker as that further call made without the failed one before it. -/
theorem Forward_frame {σ : Type}
    (U : List UInt8 → Except GoError SegmentObject) (f : Forwarder σ)
    (batch : BatchEvents) (w : Process σ) :
    (f.Forward U batch w).adapter = f ∧
    (f.Forward U batch w).adapter.Topic = f.Topic ∧
    (f.Forward U batch w).adapter.producer = f.producer ∧
    (f.Forward U batch w).batch = batch ∧
    ((∃ e ∈ batch, ∃ err, DecodeFailsWith U e err) → ∀ next : BatchEvents,
      ((f.Forward U batch w).adapter.Forward U next (f.Forward U batch w).world).message =
        (f.Forward U next w).message ∧
      ((f.Forward U batch w).adapter.Forward U next (f.Forward U batch w).world).ret =
        (f.Forward U next w).ret ∧
      ((f.Forward U batch w).adapter.Forward U next (f.Forward U batch w).world).world.sent =
        (f.Forward U next w).world.sent ∧
      ((f.Forward U batch w).adapter.Forward U next (f.Forward U batch w).world).world.broker =
        (f.Forward U next w).world.broker) := by
  obtain ⟨ha, hb⟩ := Forward_adapter U f batch w
  refine ⟨ha, by rw [ha], by rw [ha], hb, ?_⟩
  intro hfail next
  obtain ⟨pre, e, post, err, hsplit, hpre, hf⟩ := exists_first_failure U batch hfail
  obtain ⟨_, h2, h3, _⟩ := Forward_of_failure U f pre e post err w hpre hf
  rw [← hsplit] at h2 h3
  rw [ha]
  exact Forward_log_irrelevant U f next _ w h3 h2

/-- Witness of C8: after the corrupted batch failed, the mixed batch is
forwarded as on a fresh adapter. -/
theorem Forward_frame_witness :
    (∃ e ∈ corruptedBatch, ∃ err, DecodeFailsWith sampleUnmarshal e err) ∧
    (((sampleForwarder (some countingProducer)).Forward sampleUnmarshal corruptedBatch
        sampleWorld).adapter.Forward sampleUnmarshal mixedBatch
      ((sampleForwarder (some countingProducer)).Forward sampleUnmarshal corruptedBatch
        sampleWorld).world).ret =
      ((sampleForwarder (some countingProducer)).Forward sampleUnmarshal mixedBatch
        sampleWorld).ret ∧
    (((sampleForwarder (some countingProducer)).Forward sampleUnmarshal corruptedBatch
        sampleWorld).adapter.Forward sampleUnmarshal mixedBatch
      ((sampleForwarder (some countingProducer)).Forward sampleUnmarshal corruptedBatch
        sampleWorld).world).world.broker = 2 :=
  ⟨corruptedBatch_fails,
    ((Forward_frame sampleUnmarshal (sampleForwarder (some countingProducer)) corruptedBatch
      sampleWorld).2.2.2.2 corruptedBatch_fails mixedBatch).2.1,
    by decide⟩

/-- C9: for every event, nil included, and every adapter, prepared or not,
`SyncForward` returns no data and the error `unsupport sync forward`, which is
not nil; the adapter, the broker, the sends and the log are as before; and
`SupportedSyncInvoke` is false. -/
theorem SyncForward_unsupported {σ : Type} (f : Forwarder σ) (e : Option SniffData)
    (w : Process σ) :
    (f.SyncForward e w).data = none ∧
    (f.SyncForward e w).err = some (fmtErrorf "unsupport sync forward") ∧
    (f.SyncForward e w).err ≠ none ∧
    (f.SyncForward e w).adapter = f ∧
    (f.SyncForward e w).world = w ∧
    (f.SyncForward e w).world.sent = w.sent ∧
    f.SupportedSyncInvoke = false :=
  ⟨rfl, rfl, fun h => Option.noConfusion h, rfl, rfl, rfl, rfl⟩

/-- What `Prepare` leaves behind: on success a producer that is set, otherwise
the producer it found. -/
theorem Prepare_producer {σ κ : Type}
    (new : κ → Except GoError (SyncProducer σ)) (f : Forwarder σ)
    (connection : Option (Dynamic κ)) :
    ((f.Prepare new connection).1 = .returned none →
      ∃ p, (f.Prepare new connection).2.producer = some p) ∧
    ((f.Prepare new connection).1 ≠ .returned none →
      (f.Prepare new connection).2 = f) := by
  unfold Forwarder.Prepare
  cases hc : assertClient connection with
  | none =>
    cases ht : reflectTypeOf connection with
    | none => simp
    | some ty => simp
  | some client =>
    dsimp only
    cases hn : new client with
    | error err => simp
    | ok producer => simp

/-- A call of `Forward` on an adapter whose producer is set returns. -/
theorem Forward_returns_of_producer {σ : Type}
    (U : List UInt8 → Except GoError SegmentObject) (f : Forwarder σ)
    (batch : BatchEvents) (w : Process σ) (p : SyncProducer σ) (hp : f.producer = some p) :
    ∃ r, (f.Forward U batch w).ret = .returned r := by
  cases h : (forwardLoop U f batch [] w.log).err with
  | some err =>
    rw [Forward_of_loop_error U f batch w err h]
    exact ⟨_, rfl⟩
  | none =>
    rw [Forward_of_send U f batch w p h hp]
    exact ⟨_, rfl⟩

/-- C10: on an adapter whose producer is set, and so on the adapter a
successful `Prepare` leaves, `Forward` of every batch returns a value, nil or
an error. On an adapter whose producer is unset, `Forward` of every batch in
which no segment fails to decode, the empty batch included, panics on the nil
producer; and a `Prepare` that does not succeed leaves an unset producer
unset. -/
theorem Forward_fault_free_iff_prepared {σ κ : Type}
    (new : κ → Except GoError (SyncProducer σ))
    (U : List UInt8 → Except GoError SegmentObject) (f : Forwarder σ)
    (connection : Option (Dynamic κ)) (batch : BatchEvents) (w : Process σ) :
    ((f.Prepare new connection).1 = .returned none →
      (∃ p, (f.Prepare new connection).2.producer = some p) ∧
      ∃ r, ((f.Prepare new connection).2.Forward U batch w).ret = .returned r) ∧
    (∀ p, f.producer = some p → ∃ r, (f.Forward U batch w).ret = .returned r) ∧
    (f.producer = none → AllDecode U batch →
      (f.Forward U batch w).ret =
        .panicked "invalid memory address or nil pointer dereference" ∧
      (f.Forward U batch w).ret.isReturned = false) ∧
    (f.producer = none → (f.Prepare new connection).1 ≠ .returned none →
      (f.Prepare new connection).2.producer = none) := by
  refine ⟨fun hok => ?_, fun p hp => Forward_returns_of_producer U f batch w p hp,
    fun hp hall => ?_, fun hp hfail => ?_⟩
  · obtain ⟨p, hp⟩ := (Prepare_producer new f connection).1 hok
    exact ⟨⟨p, hp⟩, Forward_returns_of_producer U _ batch w p hp⟩
  · obtain ⟨h1, _, _⟩ := forwardLoop_allDecode U f batch hall [] w.log
    rw [Forward_of_nil_producer U f batch w h1 hp]
    exact ⟨rfl, rfl⟩
  · rw [(Prepare_producer new f connection).2 hfail]
    exact hp

/-- Witness of C10: after a successful `Prepare` the mixed batch is forwarded
and the call returns nil; on the unprepared adapter the same batch and the
empty batch panic. -/
theorem Forward_fault_free_iff_prepared_witness :
    ((sampleForwarder none).Prepare sampleNewSyncProducerFromClient
      (some { typeString := "*sarama.client", asClient := some 1 })).1 = .returned none ∧
    (∃ r, (((sampleForwarder none).Prepare sampleNewSyncProducerFromClient
      (some { typeString := "*sarama.client", asClient := some 1 })).2.Forward
        sampleUnmarshal mixedBatch sampleWorld).ret = .returned r) ∧
    (sampleForwarder none).producer = none ∧
    AllDecode sampleUnmarshal mixedBatch ∧
    ((sampleForwarder none).Forward sampleUnmarshal mixedBatch sampleWorld).ret =
      .panicked "invalid memory address or nil pointer dereference" ∧
    ((sampleForwarder none).Forward sampleUnmarshal [] sampleWorld).ret =
      .panicked "invalid memory address or nil pointer dereference" :=
  ⟨rfl,
    ((Forward_fault_free_iff_prepared sampleNewSyncProducerFromClient sampleUnmarshal
      (sampleForwarder none) (some { typeString := "*sarama.client", asClient := some 1 })
      mixedBatch sampleWorld).1 rfl).2,
    rfl, mixedBatch_allDecode,
    ((Forward_fault_free_iff_prepared sampleNewSyncProducerFromClient sampleUnmarshal
      (sampleForwarder none) (none : Option (Dynamic Nat)) mixedBatch sampleWorld).2.2.1 rfl
      mixedBatch_allDecode).1,
    by decide⟩

/-- What `Prepare` does with a handle that is not nil and is no broker client:
it returns an error whose text holds the type of the handle and, for what is
accepted, the words `a grpc client`; the adapter is left as it was. -/
theorem Prepare_rejects_other_type {σ κ : Type}
    (new : κ → Except GoError (SyncProducer σ)) (f : Forwarder σ) (d : Dynamic κ)
    (h : d.asClient = none) :
    f.Prepare new (some d) =
      (.returned (some ⟨"the native-tracing-kafka-forwarder only accepts a grpc client, " ++
        "but received a " ++ d.typeString⟩), f) := by
  simp [Forwarder.Prepare, assertClient, reflectTypeOf, h, fmtErrorf, Forwarder.Name,
    NativeTracing.Name, String.append_assoc]

/-- C5, at the nil handle: `Prepare` does not return an error, it panics, on
the `String` call on the nil type `reflect.TypeOf` gives for the nil
interface; the producer is left as it was. At a handle holding a string the
error returned reads that the forwarder only accepts a grpc client. -/
theorem Prepare_nil_connection_panics {σ κ : Type}
    (new : κ → Except GoError (SyncProducer σ)) (f : Forwarder σ) :
    (f.Prepare new (none : Option (Dynamic κ))).1 =
      .panicked "invalid memory address or nil pointer dereference" ∧
    (f.Prepare new (none : Option (Dynamic κ))).1.isReturned = false ∧
    (f.Prepare new (none : Option (Dynamic κ))).2.producer = f.producer ∧
    (f.Prepare new (some { typeString := "string", asClient := none })).1 =
      .returned (some ⟨"the native-tracing-kafka-forwarder only accepts a grpc client, " ++
        "but received a string"⟩) :=
  ⟨rfl, rfl, rfl, by
    rw [Prepare_rejects_other_type new f _ rfl]
    have ht : "the native-tracing-kafka-forwarder only accepts a grpc client, " ++
        "but received a " ++ "string" =
        "the native-tracing-kafka-forwarder only accepts a grpc client, " ++
        "but received a string" := by decide
    exact congrArg (fun t => Outcome.returned (some (GoError.mk t))) ht⟩

end NativeTracing
